import Mathlib

/-
Verification of the concurrent load-generation engine of shardeum-cli
(src/src/index.ts), focused on the `test:network` command and its
`NonceManager` (the Sequence Allocator), the sweep phase, the request mix
generator, the stats aggregator, and the run's error-handling skeleton.

The embedding is shallow: each JavaScript function or loop body is
translated into a pure Lean function over explicit state.  JavaScript
numbers stored by the nonce map are modelled including the `undefined` and
`NaN` cases that arise from indexing a plain object at a missing key and
post-incrementing it.
-/

/-- A JavaScript value as stored in `NonceManager.nonces` (a plain object
indexed by address strings).  Reading a missing key yields `undef`
(JS `undefined`); post-incrementing `undefined` stores and yields `NaN`
(`nan`); otherwise the stored values are integers. -/
inductive JsVal where
  | undef : JsVal
  | nan : JsVal
  | int : Int → JsVal
deriving DecidableEq

/-- JS postfix increment `x++` on a stored value: returns the old value
converted to a number, and stores the incremented value.
`undefined++` returns `NaN` and stores `NaN`; `NaN++` likewise;
an integer `n` returns `n` and stores `n + 1`.
Embeds the expression `this.nonces[address]++` at src/src/index.ts:679. -/
def postIncr : JsVal → JsVal × JsVal
  | .undef => (.nan, .nan)
  | .nan => (.nan, .nan)
  | .int n => (.int n, .int (n + 1))

/-- The Sequence Allocator's state: the `nonces` object of class
`NonceManager` (src/src/index.ts:656-658), a map from address string to
stored value (`undef` models an absent key).  The `locks` object only
serializes callers and carries no data, and the critical section of
`getNextNonce` (the read-and-increment at line 679) is synchronous
JavaScript, so allocations are modelled as atomic steps on this state. -/
structure NonceManager where
  nonces : String → JsVal

/-- Embeds `NonceManager.initialize` (src/src/index.ts:660-667): for every
account in `accounts` the external client's transaction count (here the
oracle `counts`) is stored as that account's next nonce; every other
address stays absent (`undef`). -/
def NonceManager.initNonces (counts : String → Int) (accounts : List String) : NonceManager :=
  ⟨fun a => if a ∈ accounts then .int (counts a) else .undef⟩

/-- Embeds `NonceManager.getNextNonce` (src/src/index.ts:669-684): the
stored value for `address` is post-incremented and its old value returned.
The promise lock around it only linearizes concurrent callers; the
read-modify-write itself is the synchronous line 679, so one call is one
atomic step. -/
def NonceManager.getNextNonce (m : NonceManager) (a : String) : JsVal × NonceManager :=
  ((postIncr (m.nonces a)).1,
   ⟨fun b => if b = a then (postIncr (m.nonces a)).2 else m.nonces b⟩)

/-- Performs `N` consecutive allocations for account `a`: the linearization of any
schedule of `N` concurrent `getNextNonce(a)` calls (each call's effect is
the single synchronous step at src/src/index.ts:679, so every concurrent
schedule produces exactly this sequence of state transitions).  Returns
the list of issued values in issuance order together with the final
allocator state. -/
def allocateN (m : NonceManager) (a : String) : Nat → List JsVal × NonceManager
  | 0 => ([], m)
  | Nat.succ n =>
    ((m.getNextNonce a).1 :: (allocateN ((m.getNextNonce a).2) a n).1,
     (allocateN ((m.getNextNonce a).2) a n).2)

/-- The fixed gas limit of a standard transfer used by the sweep phase:
`const gasLimit = 21000` (src/src/index.ts:621). -/
def gasLimit : Int := 21000

/-- Per-account decision of the sweep phase (src/src/index.ts:616-644):
given the account's `balance` and the current `gasPrice` (both bigints),
returns `some amount` when a return transfer of `amount` wei is sent to
the main account, `none` when the account is skipped.  The source only
computes `transferAmount = balance - gasPrice * 21000` inside the
`balance > 0` branch and sends only when `transferAmount > 0`. -/
def sweepTransfer (balance gasPrice : Int) : Option Int :=
  if 0 < balance then
    if 0 < balance - gasPrice * gasLimit then some (balance - gasPrice * gasLimit)
    else none
  else none

/-- The five operation kinds of the `TestStats` table
(src/src/index.ts:399-405). -/
inductive OpKind where
  | sendTransaction : OpKind
  | getTransactionCount : OpKind
  | getBalance : OpKind
  | blockNumber : OpKind
  | getTransactionByHash : OpKind
deriving DecidableEq

/-- The pool holds 4 test accounts: `Array(4)` in `createTestAccounts`
(src/src/index.ts:407-412), and the selection index is drawn over
`testAccounts.length`. -/
def poolSize : Nat := 4

/-- Batch size per tick: `Math.ceil(tps / 4)` (src/src/index.ts:470),
written with natural-number ceiling division. -/
def requestsPerTick (tps : Nat) : Nat := (tps + (poolSize - 1)) / poolSize

/-- Transfer value of a generated operation: `parseEther("0.0001")`
= 10^14 wei (src/src/index.ts:538 and 577). -/
def transferValueWei : Nat := 100000000000000

/-- The three uniform random draws consumed by one slot of the request mix
generator (src/src/index.ts:523-546): `Math.floor(Math.random() * 4)`
is uniform on `{0,1,2,3}`, used once for the target account index, once
for the sender account index, and once for the extra-operation choice. -/
structure SlotRand where
  target : Fin 4
  sender : Fin 4
  op : Fin 4
deriving DecidableEq

/-- The read-style operation kind selected by the `switch (op)` at
src/src/index.ts:547-585: draw 0 is a transaction-count lookup, 1 a
balance lookup, 2 a latest-block-number lookup, 3 the compound
transfer-then-lookup. -/
def readKindOf (i : Fin 4) : OpKind :=
  match i.val with
  | 0 => .getTransactionCount
  | 1 => .getBalance
  | 2 => .blockNumber
  | _ => .getTransactionByHash

/-- One generated request as pushed onto `operations`
(src/src/index.ts:525-585): its stats kind tag, the pool indices of the
accounts it references (sender signs, target receives or is queried) and
the transfer amount when it sends value. -/
structure TaggedOp where
  kind : OpKind
  sender : Option (Fin 4)
  target : Option (Fin 4)
  amount : Option Nat
deriving DecidableEq

/-- The transfer operation every slot pushes first
(src/src/index.ts:528-543): a `sendTransaction` of the fixed value from
the randomly drawn sender to the randomly drawn target. -/
def transferOp (r : SlotRand) : TaggedOp :=
  ⟨.sendTransaction, some r.sender, some r.target, some transferValueWei⟩

/-- The additional read-style operation pushed by the `switch`
(src/src/index.ts:546-585).  Cases 0 and 1 query the target account's
address; case 2 touches no account; case 3 performs a second transfer
from sender to target and then looks the transaction up by its hash. -/
def readOp (r : SlotRand) : TaggedOp :=
  match r.op.val with
  | 0 => ⟨.getTransactionCount, none, some r.target, none⟩
  | 1 => ⟨.getBalance, none, some r.target, none⟩
  | 2 => ⟨.blockNumber, none, none, none⟩
  | _ => ⟨.getTransactionByHash, some r.sender, some r.target, some transferValueWei⟩

/-- One slot of the generation loop body (src/src/index.ts:522-585):
exactly the transfer operation followed by exactly one read-style
operation. -/
def generateSlot (r : SlotRand) : List TaggedOp := [transferOp r, readOp r]

/-- One tick's batch (the `for (let i = 0; i < requestsPerTick; i++)` loop,
src/src/index.ts:522): slot `i` consumes the `i`-th triple of random
draws from the stream `draws`. -/
def generateBatch (tps : Nat) (draws : Nat → SlotRand) : List (List TaggedOp) :=
  (List.range (requestsPerTick tps)).map (fun i => generateSlot (draws i))

/-- The stats table: success and error count per operation kind
(src/src/index.ts:503-509). -/
def Stats := OpKind → Nat × Nat

/-- Recording one settled operation (src/src/index.ts:588-594): the
dispatcher attaches `.then(() => stats[type].success++)` and
`.catch(() => stats[type].error++)` to each operation, so a settled
operation of kind `k` increments exactly one of `k`'s two counters. -/
def record (s : Stats) (k : OpKind) (ok : Bool) : Stats :=
  fun j =>
    if j = k then
      if ok then ((s k).1 + 1, (s k).2) else ((s k).1, (s k).2 + 1)
    else s j

/-- Folding the recording of a list of settled outcomes (kind, success?)
in settlement order: the effect of awaiting one batch with
`Promise.allSettled` (src/src/index.ts:598), every handler firing once. -/
def runOutcomes (s : Stats) : List (OpKind × Bool) → Stats
  | [] => s
  | o :: os => runOutcomes (record s o.1 o.2) os

/-- The five rows of the stats table, in declaration order
(src/src/index.ts:504-508). -/
def allKinds : List OpKind :=
  [.sendTransaction, .getTransactionCount, .getBalance, .blockNumber, .getTransactionByHash]

/-- Total of the stats table: success + error summed over all kinds. -/
def totalCount (s : Stats) : Nat :=
  (allKinds.map (fun k => (s k).1 + (s k).2)).sum

/-- The tick loop's effect on stats (src/src/index.ts:520-609): batches
are dispatched one after another; each batch is fully awaited and its
outcomes recorded before the next tick begins, whatever those outcomes
are. -/
def tickLoop (s : Stats) : List (List (OpKind × Bool)) → Stats
  | [] => s
  | b :: bs => tickLoop (runOutcomes s b) bs

/-- The stats refresh interval: `now - lastStatsUpdate >= 1000`
(src/src/index.ts:602). -/
def statsRefreshInterval : Nat := 1000

/-- Times at which `updateStats` runs, given the previous refresh time
`lastUpdate` and the list of successive batch-completion times (the check
at src/src/index.ts:601-605 runs only after `Promise.allSettled` of each
batch, and resets `lastStatsUpdate` whenever it renders). -/
def renderTimes (lastUpdate : Nat) : List Nat → List Nat
  | [] => []
  | t :: ts =>
    if statsRefreshInterval ≤ t - lastUpdate then t :: renderTimes t ts
    else renderTimes lastUpdate ts

/-- Which network calls inside the compound `getTransactionByHash`
operation succeed (src/src/index.ts:566-584): the inner second transfer
(`sendTransaction` at line 575) and the lookup (`getTransaction` at
line 581). -/
structure CompoundEnv where
  sendOk : Bool
  lookupOk : Bool

/-- The compound operation of `case 3` (src/src/index.ts:566-584): it
first consumes a nonce via `getNextNonce`, then sends the inner transfer,
then looks it up.  Returns the allocator state after the call and whether
the whole operation's promise fulfilled.  A rejection of the inner send
skips the lookup, but the nonce has already been consumed. -/
def runCompound (m : NonceManager) (sender : String) (e : CompoundEnv) :
    NonceManager × Bool :=
  ((m.getNextNonce sender).2, e.sendOk && e.lookupOk)

/-- Embeds `createTestAccounts` (src/src/index.ts:407-412):
`Array(4).fill(0).map(() => privateKeyToAccount(generatePrivateKey()))`,
with `gen i` standing for the `i`-th freshly generated identity's
address. -/
def createTestAccounts (gen : Nat → String) : List String :=
  (List.range poolSize).map gen

/-- Outcome of the funding loop (src/src/index.ts:481-493): the pool the
rest of the run uses, and the accounts whose funding transfer threw (the
`catch` at line 490 only logs; `fundOk a` says whether `a`'s funding
transfer succeeded). -/
structure InitResult where
  pool : List String
  fundFailed : List String

/-- The funding phase: iterates over the pool sending one funding transfer
each, logging failures.  The loop body (src/src/index.ts:482-492) never
mutates `testAccounts`, so the pool carried into the tick loop is the
created list itself. -/
def fundPhase (pool : List String) (fundOk : String → Bool) : InitResult :=
  { pool := pool, fundFailed := pool.filter (fun a => !(fundOk a)) }

/-- Account selection in the tick loop
(src/src/index.ts:523-524): `testAccounts[Math.floor(Math.random() *
testAccounts.length)]`, i.e. indexing the pool at a uniformly drawn
in-range index. -/
def selectAccount (pool : List String) (i : Nat) : Option String := pool.get? i

/-- What the `test:network` action observably does at the fatal-error
level, embedding its control flow (src/src/index.ts:461-652): the whole
body runs inside `try { ... } catch (error) { handleError(error) }`.
A missing private key throws at line 465 before any network traffic;
a failed nonce initialization rejects inside
`nonceManager.initialize` (line 498) before the tick loop.  Either way
the single `catch` prints exactly one `handleError` table and the action
returns normally — the source never calls `process.exit` nor sets
`process.exitCode`, so the process completion status is 0. -/
structure RunEnv where
  privateKeyConfigured : Bool
  nonceInitOk : Bool
  tickCount : Nat
deriving DecidableEq

/-- Observable result of a `test:network` run: how many `handleError`
diagnostic tables were printed, how many tick-loop iterations generated
traffic, and the process exit status. -/
structure RunReport where
  diagnostics : Nat
  ticksRun : Nat
  exitCode : Nat
deriving DecidableEq

/-- Control-flow skeleton of the `test:network` action
(src/src/index.ts:461-652): the key check precedes funding and the tick
loop; nonce initialization precedes the tick loop; a thrown error lands
in the single `catch` (line 649-651) which prints one diagnostic table,
after which the process finishes with status 0. -/
def testNetworkRun (e : RunEnv) : RunReport :=
  if !e.privateKeyConfigured then ⟨1, 0, 0⟩
  else if !e.nonceInitOk then ⟨1, 0, 0⟩
  else ⟨0, e.tickCount, 0⟩

/-- After initialization, every account of the pool has its oracle count
stored as its next nonce. -/
theorem initNonces_mem {counts : String → Int} {accounts : List String} {a : String}
    (h : a ∈ accounts) :
    (NonceManager.initNonces counts accounts).nonces a = .int (counts a) := by
  simp [NonceManager.initNonces, h]

/-- Core induction for the allocator: starting from a state whose stored
value for `a` is the integer `base`, `N` allocations return exactly
`base, base+1, ..., base+N-1` in issuance order and leave `base+N`
stored. -/
theorem allocateN_int (a : String) :
    ∀ (N : Nat) (m : NonceManager) (base : Int), m.nonces a = .int base →
      (allocateN m a N).1 = (List.range N).map (fun i : Nat => JsVal.int (base + (i : Int)))
      ∧ ((allocateN m a N).2).nonces a = .int (base + N)
  | 0, m, base, h => by simp [allocateN, h]
  | Nat.succ N, m, base, h => by
    have h1 : (m.getNextNonce a).1 = .int base := by
      simp [NonceManager.getNextNonce, h, postIncr]
    have h2 : ((m.getNextNonce a).2).nonces a = .int (base + 1) := by
      simp [NonceManager.getNextNonce, h, postIncr]
    have ih := allocateN_int a N ((m.getNextNonce a).2) (base + 1) h2
    refine ⟨?_, ?_⟩
    · show (m.getNextNonce a).1 :: _ = _
      rw [h1, ih.1, List.range_succ_eq_map, List.map_cons, List.map_map]
      have he : ((fun i : Nat => JsVal.int (base + (i : Int))) ∘ Nat.succ)
          = fun i : Nat => JsVal.int (base + 1 + (i : Int)) := by
        funext i
        simp [Function.comp]
        ring
      rw [he]
      simp
    · show ((allocateN ((m.getNextNonce a).2) a N).2).nonces a = _
      rw [ih.2]
      congr 1
      push_cast
      ring

/-- C1: for every account `a` initialized in the Sequence Allocator with
base value `base`, issuing `N` allocations (the linearization of any
schedule of `N` concurrent `getNextNonce(a)` calls, each call's effect
being one synchronous step) returns exactly the integers
`base, base+1, ..., base+N-1` — the list equals the mapped range, hence
the returned set is exactly that range with no duplicates and no gaps —
and leaves `a`'s stored next value equal to `base + N`. -/
theorem C1_allocator_issues_exact_range (counts : String → Int)
    (accounts : List String) (a : String) (base : Int) (N : Nat)
    (ha : a ∈ accounts) (hbase : counts a = base) :
    (allocateN (NonceManager.initNonces counts accounts) a N).1
      = (List.range N).map (fun i : Nat => JsVal.int (base + (i : Int)))
    ∧ ((allocateN (NonceManager.initNonces counts accounts) a N).1).Nodup
    ∧ ((allocateN (NonceManager.initNonces counts accounts) a N).2).nonces a
      = JsVal.int (base + N) := by
  have h0 : (NonceManager.initNonces counts accounts).nonces a = .int base := by
    rw [initNonces_mem ha, hbase]
  have h := allocateN_int a N _ base h0
  refine ⟨h.1, ?_, h.2⟩
  rw [h.1]
  refine List.Nodup.map ?_ (List.nodup_range N)
  intro x y hxy
  simp only [JsVal.int.injEq] at hxy
  omega

/-- Witness for C1 at a concrete input: base 5, three allocations. -/
theorem C1_allocator_issues_exact_range_witness :
    ("0xa" ∈ ["0xa", "0xb"])
    ∧ ((allocateN (NonceManager.initNonces (fun _ => 5) ["0xa", "0xb"]) "0xa" 3).1
        = (List.range 3).map (fun i : Nat => JsVal.int (5 + (i : Int)))
      ∧ ((allocateN (NonceManager.initNonces (fun _ => 5) ["0xa", "0xb"]) "0xa" 3).1).Nodup
      ∧ ((allocateN (NonceManager.initNonces (fun _ => 5) ["0xa", "0xb"]) "0xa" 3).2).nonces "0xa"
        = JsVal.int (5 + (3 : Nat))) :=
  ⟨by decide,
   C1_allocator_issues_exact_range (fun _ => 5) ["0xa", "0xb"] "0xa" 5 3 (by decide) rfl⟩

/-- C2 counterexample: calling `getNextNonce` with an address outside the
initialized pool is not a fatal failure in the source — `await
this.locks[address]` awaits `undefined` and `this.nonces[address]++`
silently evaluates `undefined++`, so the call completes normally,
returning `NaN` and storing `NaN`, rather than throwing. -/
theorem C2_counterexample :
    (NonceManager.getNextNonce (NonceManager.initNonces (fun _ => 0) ["0xa"]) "0xdead").1
      = JsVal.nan
    ∧ ((NonceManager.getNextNonce (NonceManager.initNonces (fun _ => 0) ["0xa"]) "0xdead").2).nonces "0xdead"
      = JsVal.nan := by
  constructor <;> decide

/-- C2 amended: for every account identifier `x` outside the set passed to
the allocator's initialization, `getNextNonce(x)` does not fail: it
completes normally, returns `NaN` — which is not a usable integer
sequence number — and leaves `NaN` stored as `x`'s counter. -/
theorem C2_unknown_account_yields_nan (counts : String → Int) (accounts : List String)
    (x : String) (hx : x ∉ accounts) :
    (NonceManager.getNextNonce (NonceManager.initNonces counts accounts) x).1 = JsVal.nan
    ∧ (∀ n : Int,
        (NonceManager.getNextNonce (NonceManager.initNonces counts accounts) x).1 ≠ JsVal.int n)
    ∧ ((NonceManager.getNextNonce (NonceManager.initNonces counts accounts) x).2).nonces x
      = JsVal.nan := by
  have h0 : (NonceManager.initNonces counts accounts).nonces x = .undef := by
    simp [NonceManager.initNonces, hx]
  refine ⟨?_, ?_, ?_⟩ <;> simp [NonceManager.getNextNonce, h0, postIncr]

/-- C3: for every pool account processed by the sweep phase with positive
remaining balance, the transfer amount is computed exactly as
`balance - gasPrice * 21000`, a sweep transfer of exactly that amount is
sent if and only if it is strictly positive, and for a non-positive
computed amount the account is skipped (no transfer). -/
theorem C3_sweep_amount (balance gasPrice : Int) (hb : 0 < balance) :
    gasLimit = 21000
    ∧ (0 < balance - gasPrice * gasLimit →
        sweepTransfer balance gasPrice = some (balance - gasPrice * gasLimit))
    ∧ (balance - gasPrice * gasLimit ≤ 0 → sweepTransfer balance gasPrice = none)
    ∧ (sweepTransfer balance gasPrice ≠ none ↔ 0 < balance - gasPrice * gasLimit) := by
  unfold sweepTransfer
  rw [if_pos hb]
  by_cases h : 0 < balance - gasPrice * gasLimit
  · rw [if_pos h]
    exact ⟨rfl, fun _ => rfl, fun hle => absurd h (by omega), by simp [h]⟩
  · rw [if_neg h]
    exact ⟨rfl, fun hp => absurd hp h, fun _ => rfl, by simp [h]⟩

/-- Witness for C3: the spec's own test case, balance 100 with gas cost
21000 ≥ 100, performs no transfer; a large balance is swept for exactly
balance minus gas cost. -/
theorem C3_sweep_amount_witness :
    (0 : Int) < 100 ∧ sweepTransfer 100 1 = none
    ∧ (0 : Int) < 10 ^ 18
    ∧ sweepTransfer (10 ^ 18) 1 = some (10 ^ 18 - 1 * gasLimit) := by
  have h1 := C3_sweep_amount 100 1 (by norm_num)
  have h2 := C3_sweep_amount (10 ^ 18) 1 (by norm_num)
  exact ⟨by norm_num, h1.2.2.1 (by norm_num [gasLimit]), by norm_num,
    h2.2.1 (by norm_num [gasLimit])⟩

/-- C4: every tick's batch has exactly `ceil(tps / poolSize)` slots (the
two divisibility bounds characterize `requestsPerTick` as that ceiling);
slot `i` is exactly the two tagged operations
`[transferOp (draws i), readOp (draws i)]`; the transfer sends the fixed
small value from the drawn sender to the drawn target (the two indices
are drawn independently and may coincide); the additional operation's
kind is determined by one uniform draw over `Fin 4` through `readKindOf`,
which maps the four equally likely draws bijectively onto the four
read-style kinds. -/
theorem C4_request_mix (tps : Nat) (draws : Nat → SlotRand) :
    (generateBatch tps draws).length = requestsPerTick tps
    ∧ tps ≤ poolSize * requestsPerTick tps
    ∧ poolSize * requestsPerTick tps < tps + poolSize
    ∧ (∀ i, i < requestsPerTick tps →
        (generateBatch tps draws).get? i = some [transferOp (draws i), readOp (draws i)])
    ∧ (∀ slot ∈ generateBatch tps draws, slot.length = 2)
    ∧ (∀ r : SlotRand, transferOp r
        = ⟨.sendTransaction, some r.sender, some r.target, some transferValueWei⟩)
    ∧ (∀ r : SlotRand, (readOp r).kind = readKindOf r.op)
    ∧ Function.Injective readKindOf
    ∧ List.ofFn readKindOf
        = [OpKind.getTransactionCount, .getBalance, .blockNumber, .getTransactionByHash] := by
  refine ⟨?_, ?_, ?_, ?_, ?_, fun _ => rfl, ?_, ?_, ?_⟩
  · simp [generateBatch]
  · simp only [requestsPerTick, poolSize]
    omega
  · simp only [requestsPerTick, poolSize]
    omega
  · intro i hi
    simp [generateBatch, generateSlot, List.get?_map, List.get?_range, hi]
  · intro slot hs
    simp [generateBatch, generateSlot] at hs
    obtain ⟨i, _, rfl⟩ := hs
    rfl
  · intro r
    rcases r with ⟨t, s, o⟩
    rcases o with ⟨ov, ho⟩
    interval_cases ov <;> rfl
  · decide
  · decide

/-- Witness for C4 with tps 40: batch size 10 and the first slot's two
operations, sender and target drawn coinciding. -/
theorem C4_request_mix_witness :
    (generateBatch 40 (fun _ => ⟨0, 0, 3⟩)).length = requestsPerTick 40
    ∧ (generateBatch 40 (fun _ => ⟨0, 0, 3⟩)).get? 0
        = some [transferOp ⟨0, 0, 3⟩, readOp ⟨0, 0, 3⟩] := by
  have h := C4_request_mix 40 (fun _ => ⟨0, 0, 3⟩)
  exact ⟨h.1, h.2.2.2.1 0 (by decide)⟩

/-- Recording one outcome never decreases any counter. -/
theorem record_le (s : Stats) (k : OpKind) (ok : Bool) (j : OpKind) :
    (s j).1 ≤ (record s k ok j).1 ∧ (s j).2 ≤ (record s k ok j).2 := by
  unfold record
  by_cases h : j = k
  · subst h
    cases ok <;> simp
  · simp [h]

/-- Recording one outcome increments the grand total by exactly one. -/
theorem totalCount_record (s : Stats) (k : OpKind) (ok : Bool) :
    totalCount (record s k ok) = totalCount s + 1 := by
  cases k <;> cases ok <;> simp [totalCount, allKinds, record] <;> ring

/-- Settling outcomes in two stages is the same as settling them in one
run: the stats table evolves by accumulation. -/
theorem runOutcomes_append (s : Stats) (l1 l2 : List (OpKind × Bool)) :
    runOutcomes s (l1 ++ l2) = runOutcomes (runOutcomes s l1) l2 := by
  induction l1 generalizing s with
  | nil => rfl
  | cons o os ih => simp [runOutcomes, ih]

/-- Settling a list of outcomes adds exactly its length to the grand
total: each settled operation is counted exactly once. -/
theorem totalCount_runOutcomes (s : Stats) (os : List (OpKind × Bool)) :
    totalCount (runOutcomes s os) = totalCount s + os.length := by
  induction os generalizing s with
  | nil => rfl
  | cons o os ih =>
    show totalCount (runOutcomes (record s o.1 o.2) os) = _
    rw [ih, totalCount_record]
    simp
    omega

/-- The success counter of kind `k` after settling `os` grew by exactly
the number of successful outcomes of kind `k` in `os`. -/
theorem runOutcomes_fst_count (s : Stats) (os : List (OpKind × Bool)) (k : OpKind) :
    (runOutcomes s os k).1 = (s k).1 + os.countP (fun o => decide (o.1 = k) && o.2) := by
  induction os generalizing s with
  | nil => rfl
  | cons o os ih =>
    show (runOutcomes (record s o.1 o.2) os k).1 = _
    rw [ih, List.countP_cons]
    unfold record
    by_cases h : k = o.1
    · subst h
      cases ho : o.2 <;> simp [ho] <;> omega
    · have h2 : ¬(o.1 = k) := fun he => h he.symm
      simp [h, h2]

/-- The error counter of kind `k` after settling `os` grew by exactly the
number of failed outcomes of kind `k` in `os`. -/
theorem runOutcomes_snd_count (s : Stats) (os : List (OpKind × Bool)) (k : OpKind) :
    (runOutcomes s os k).2 = (s k).2 + os.countP (fun o => decide (o.1 = k) && !o.2) := by
  induction os generalizing s with
  | nil => rfl
  | cons o os ih =>
    show (runOutcomes (record s o.1 o.2) os k).2 = _
    rw [ih, List.countP_cons]
    unfold record
    by_cases h : k = o.1
    · subst h
      cases ho : o.2 <;> simp [ho] <;> omega
    · have h2 : ¬(o.1 = k) := fun he => h he.symm
      simp [h, h2]

/-- Settling outcomes never decreases any counter. -/
theorem runOutcomes_le (s : Stats) (os : List (OpKind × Bool)) (k : OpKind) :
    (s k).1 ≤ (runOutcomes s os k).1 ∧ (s k).2 ≤ (runOutcomes s os k).2 := by
  rw [runOutcomes_fst_count, runOutcomes_snd_count]
  omega

/-- C5: every per-kind success and error counter is monotonically
non-decreasing over time (every prefix of the settled-outcome sequence
yields counters between the initial ones and the final ones), and after
all dispatched operations have settled the grand total equals the initial
total plus the number of operations dispatched — each settled operation
having incremented exactly the one counter matching its kind and outcome
exactly once, as the per-kind counting equations state. -/
theorem C5_stats_monotone_total (s : Stats) (pre suf : List (OpKind × Bool)) (k : OpKind) :
    runOutcomes s (pre ++ suf) = runOutcomes (runOutcomes s pre) suf
    ∧ (s k).1 ≤ (runOutcomes s pre k).1
    ∧ (s k).2 ≤ (runOutcomes s pre k).2
    ∧ (runOutcomes s pre k).1 ≤ (runOutcomes s (pre ++ suf) k).1
    ∧ (runOutcomes s pre k).2 ≤ (runOutcomes s (pre ++ suf) k).2
    ∧ totalCount (runOutcomes s pre) = totalCount s + pre.length
    ∧ (runOutcomes s pre k).1 = (s k).1 + pre.countP (fun o => decide (o.1 = k) && o.2)
    ∧ (runOutcomes s pre k).2 = (s k).2 + pre.countP (fun o => decide (o.1 = k) && !o.2) := by
  have happ := runOutcomes_append s pre suf
  refine ⟨happ, (runOutcomes_le s pre k).1, (runOutcomes_le s pre k).2, ?_, ?_,
    totalCount_runOutcomes s pre, runOutcomes_fst_count s pre k, runOutcomes_snd_count s pre k⟩
  · rw [happ]
    exact (runOutcomes_le (runOutcomes s pre) suf k).1
  · rw [happ]
    exact (runOutcomes_le (runOutcomes s pre) suf k).2

/-- C6: a failing operation never aborts its batch or the run — the tick
loop's next state is obtained by settling the full batch (all `b.length`
operations are counted, so none is dropped or retried even when `op`
failed), the failure is recorded as an error increment for `op`'s kind,
and the loop proceeds to the remaining ticks `bs`. -/
theorem C6_failure_never_aborts (s : Stats) (b : List (OpKind × Bool))
    (bs : List (List (OpKind × Bool))) (op : OpKind × Bool)
    (hmem : op ∈ b) (hfail : op.2 = false) :
    tickLoop s (b :: bs) = tickLoop (runOutcomes s b) bs
    ∧ totalCount (runOutcomes s b) = totalCount s + b.length
    ∧ (runOutcomes s b op.1).2
        = (s op.1).2 + b.countP (fun o => decide (o.1 = op.1) && !o.2)
    ∧ 1 ≤ b.countP (fun o => decide (o.1 = op.1) && !o.2) := by
  refine ⟨rfl, totalCount_runOutcomes s b, runOutcomes_snd_count s b op.1, ?_⟩
  have : 0 < b.countP (fun o => decide (o.1 = op.1) && !o.2) :=
    List.countP_pos.mpr ⟨op, hmem, by simp [hfail]⟩
  omega

/-- Witness for C6: a two-operation batch whose transfer fails. -/
theorem C6_failure_never_aborts_witness :
    ((OpKind.sendTransaction, false) ∈
        [(OpKind.sendTransaction, false), (OpKind.getBalance, true)])
    ∧ (tickLoop (fun _ => (0, 0))
          ([(OpKind.sendTransaction, false), (OpKind.getBalance, true)] :: [])
        = tickLoop
            (runOutcomes (fun _ => (0, 0))
              [(OpKind.sendTransaction, false), (OpKind.getBalance, true)]) []
      ∧ totalCount (runOutcomes (fun _ => (0, 0))
            [(OpKind.sendTransaction, false), (OpKind.getBalance, true)])
          = totalCount (fun _ => (0, 0))
            + [(OpKind.sendTransaction, false), (OpKind.getBalance, true)].length
      ∧ (runOutcomes (fun _ => (0, 0))
            [(OpKind.sendTransaction, false), (OpKind.getBalance, true)]
            OpKind.sendTransaction).2
          = ((fun (_ : OpKind) => ((0 : Nat), (0 : Nat))) OpKind.sendTransaction).2
            + [(OpKind.sendTransaction, false), (OpKind.getBalance, true)].countP
                (fun o => decide (o.1 = OpKind.sendTransaction) && !o.2)
      ∧ 1 ≤ [(OpKind.sendTransaction, false), (OpKind.getBalance, true)].countP
              (fun o => decide (o.1 = OpKind.sendTransaction) && !o.2)) :=
  ⟨by decide,
   C6_failure_never_aborts (fun _ => (0, 0))
     [(OpKind.sendTransaction, false), (OpKind.getBalance, true)] []
     (OpKind.sendTransaction, false) (by decide) rfl⟩

/-- C7 counterexample: with no private key configured the run terminates
before the tick loop with a single diagnostic, but the error is caught by
the action's own `catch` and rendered, and the source never calls
`process.exit` nor sets `process.exitCode`, so the completion status is
0, not non-zero as the claim states. -/
theorem C7_counterexample :
    testNetworkRun ⟨false, true, 5⟩ = ⟨1, 0, 0⟩ := rfl

/-- C7 amended: every fatal error (missing signing key for the main
account, or failure to initialize nonce state for a pool account)
terminates the run before the tick loop generates any traffic and
produces a single diagnostic table, but the process completes with
status 0 because the error is caught and rendered by `handleError`
rather than rethrown or turned into a non-zero exit code. -/
theorem C7_fatal_before_traffic (e : RunEnv)
    (h : e.privateKeyConfigured = false ∨ e.nonceInitOk = false) :
    (testNetworkRun e).ticksRun = 0
    ∧ (testNetworkRun e).diagnostics = 1
    ∧ (testNetworkRun e).exitCode = 0 := by
  rcases h with h | h
  · simp [testNetworkRun, h]
  · cases hp : e.privateKeyConfigured <;> simp [testNetworkRun, h, hp]

/-- Witness for C7's amended theorem: nonce initialization fails. -/
theorem C7_fatal_before_traffic_witness :
    (testNetworkRun ⟨true, false, 7⟩).ticksRun = 0
    ∧ (testNetworkRun ⟨true, false, 7⟩).diagnostics = 1
    ∧ (testNetworkRun ⟨true, false, 7⟩).exitCode = 0 :=
  C7_fatal_before_traffic ⟨true, false, 7⟩ (Or.inr rfl)

/-- Refresh times are a subset of the batch-completion times: the check at
src/src/index.ts:601 runs only after `Promise.allSettled`. -/
theorem renderTimes_subset : ∀ (ts : List Nat) (last t : Nat),
    t ∈ renderTimes last ts → t ∈ ts
  | [], _, _, h => by simp [renderTimes] at h
  | t' :: ts, last, t, h => by
    unfold renderTimes at h
    by_cases hc : statsRefreshInterval ≤ t' - last
    · rw [if_pos hc] at h
      rcases List.mem_cons.mp h with h | h
      · exact List.mem_cons.mpr (Or.inl h)
      · exact List.mem_cons.mpr (Or.inr (renderTimes_subset ts t' t h))
    · rw [if_neg hc] at h
      exact List.mem_cons.mpr (Or.inr (renderTimes_subset ts last t h))

/-- Successive refreshes are at least one interval apart: the guard
`now - lastStatsUpdate >= 1000` and the reset of `lastStatsUpdate`. -/
theorem renderTimes_chain : ∀ (ts : List Nat) (last : Nat),
    List.Chain (fun a b => a + statsRefreshInterval ≤ b) last (renderTimes last ts)
  | [], _ => by simp [renderTimes]
  | t :: ts, last => by
    unfold renderTimes
    by_cases hc : statsRefreshInterval ≤ t - last
    · rw [if_pos hc]
      refine List.Chain.cons ?_ (renderTimes_chain ts t)
      have hk : statsRefreshInterval = 1000 := rfl
      omega
    · rw [if_neg hc]
      exact renderTimes_chain ts last

/-- C8 counterexample: the refresh check runs only after a batch settles
(src/src/index.ts:598-605).  With the previous refresh at time 0 and
batches settling at 2500 and 2600 ms, the display refreshes once, at the
batch boundary 2500 — not at 1000 or 2000 as a once-per-second cadence
independent of tick boundaries would require — so a refresh is contingent
on a batch completing. -/
theorem C8_counterexample :
    renderTimes 0 [2500, 2600] = [2500]
    ∧ 1000 ∉ renderTimes 0 [2500, 2600]
    ∧ 2000 ∉ renderTimes 0 [2500, 2600] := by
  refine ⟨by decide, by decide, by decide⟩

/-- C8 amended: the stats display refresh is checked only at batch
boundaries and throttled to at most once per second: every refresh time
is the completion time of some batch, and consecutive refreshes (starting
from the previous refresh) are at least `statsRefreshInterval` = 1000 ms
apart, so multiple records coalesce into one render and a refresh can be
delayed past one second by a long-running batch. -/
theorem C8_render_at_batch_boundaries (lastUpdate : Nat) (ts : List Nat) :
    (∀ t ∈ renderTimes lastUpdate ts, t ∈ ts)
    ∧ List.Chain (fun a b => a + statsRefreshInterval ≤ b) lastUpdate
        (renderTimes lastUpdate ts) :=
  ⟨fun t ht => renderTimes_subset ts lastUpdate t ht,
   renderTimes_chain ts lastUpdate⟩

/-- Witness for C8's amended theorem on the counterexample schedule. -/
theorem C8_render_at_batch_boundaries_witness :
    2500 ∈ [2500, 2600]
    ∧ List.Chain (fun a b => a + statsRefreshInterval ≤ b) 0
        (renderTimes 0 [2500, 2600]) :=
  ⟨(C8_render_at_batch_boundaries 0 [2500, 2600]).1 2500 (by decide),
   (C8_render_at_batch_boundaries 0 [2500, 2600]).2⟩

/-- C9: when any call inside the compound transfer-then-lookup operation
fails, the whole compound settles as one rejected promise: the nonce for
the inner transfer has already been consumed (the sender's stored counter
is incremented), yet exactly one stats increment occurs, on the error
counter of the `getTransactionByHash` kind — the `sendTransaction`
counters are untouched. -/
theorem C9_compound_single_bucket (s : Stats) (m : NonceManager) (a : String)
    (e : CompoundEnv) (n : Int)
    (hn : m.nonces a = JsVal.int n)
    (hfail : e.sendOk = false ∨ e.lookupOk = false) :
    (runCompound m a e).2 = false
    ∧ ((runCompound m a e).1).nonces a = JsVal.int (n + 1)
    ∧ record s .getTransactionByHash (runCompound m a e).2 .getTransactionByHash
        = ((s .getTransactionByHash).1, (s .getTransactionByHash).2 + 1)
    ∧ record s .getTransactionByHash (runCompound m a e).2 .sendTransaction
        = s .sendTransaction
    ∧ totalCount (record s .getTransactionByHash (runCompound m a e).2)
        = totalCount s + 1 := by
  have h2 : (runCompound m a e).2 = false := by
    rcases hfail with h | h <;> simp [runCompound, h]
  refine ⟨h2, ?_, ?_, ?_, ?_⟩
  · simp [runCompound, NonceManager.getNextNonce, hn, postIncr]
  · rw [h2]
    simp [record]
  · rw [h2]
    simp [record]
  · rw [h2]
    exact totalCount_record s .getTransactionByHash false

/-- Witness for C9: inner send fails after the nonce (7) was consumed. -/
theorem C9_compound_single_bucket_witness :
    ((NonceManager.initNonces (fun _ => 7) ["0xa"]).nonces "0xa" = JsVal.int 7)
    ∧ ((runCompound (NonceManager.initNonces (fun _ => 7) ["0xa"]) "0xa" ⟨false, true⟩).2 = false
      ∧ ((runCompound (NonceManager.initNonces (fun _ => 7) ["0xa"]) "0xa" ⟨false, true⟩).1).nonces "0xa"
          = JsVal.int (7 + 1)
      ∧ record (fun _ => (0, 0)) .getTransactionByHash
            (runCompound (NonceManager.initNonces (fun _ => 7) ["0xa"]) "0xa" ⟨false, true⟩).2
            .getTransactionByHash
          = (((fun (_ : OpKind) => ((0 : Nat), (0 : Nat))) OpKind.getTransactionByHash).1,
             ((fun (_ : OpKind) => ((0 : Nat), (0 : Nat))) OpKind.getTransactionByHash).2 + 1)
      ∧ record (fun _ => (0, 0)) .getTransactionByHash
            (runCompound (NonceManager.initNonces (fun _ => 7) ["0xa"]) "0xa" ⟨false, true⟩).2
            .sendTransaction
          = (fun (_ : OpKind) => ((0 : Nat), (0 : Nat))) OpKind.sendTransaction
      ∧ totalCount (record (fun _ => (0, 0)) .getTransactionByHash
            (runCompound (NonceManager.initNonces (fun _ => 7) ["0xa"]) "0xa" ⟨false, true⟩).2)
          = totalCount (fun _ => (0, 0)) + 1) :=
  ⟨by decide,
   C9_compound_single_bucket (fun _ => (0, 0))
     (NonceManager.initNonces (fun _ => 7) ["0xa"]) "0xa" ⟨false, true⟩ 7
     (by decide) (Or.inl rfl)⟩

/-- C10: the pool of test accounts is fixed at creation with exactly 4
generated identities, the funding loop passes the pool through unchanged
(failures are only logged), and an account whose funding failed is still
a member of the pool carried into the tick loop and remains selectable by
the random in-range account selection of every subsequent tick. -/
theorem C10_pool_membership_fixed (gen : Nat → String) (fundOk : String → Bool) (a : String)
    (ha : a ∈ (fundPhase (createTestAccounts gen) fundOk).fundFailed) :
    (createTestAccounts gen).length = poolSize
    ∧ (fundPhase (createTestAccounts gen) fundOk).pool = createTestAccounts gen
    ∧ a ∈ (fundPhase (createTestAccounts gen) fundOk).pool
    ∧ ∃ i, i < poolSize ∧ selectAccount (createTestAccounts gen) i = some a := by
  have ha2 : a ∈ (createTestAccounts gen).filter (fun x => !(fundOk x)) := ha
  have hmem : a ∈ createTestAccounts gen := List.mem_of_mem_filter ha2
  refine ⟨by simp [createTestAccounts], rfl, hmem, ?_⟩
  obtain ⟨i, hi⟩ := List.mem_iff_get?.mp hmem
  have hlt : i < (createTestAccounts gen).length := by
    rcases List.get?_eq_some.mp hi with ⟨hl, _⟩
    exact hl
  refine ⟨i, ?_, hi⟩
  simpa [createTestAccounts] using hlt

/-- Witness for C10: a pool whose every funding transfer fails. -/
theorem C10_pool_membership_fixed_witness :
    ("p" ∈ (fundPhase (createTestAccounts (fun _ => "p")) (fun _ => false)).fundFailed)
    ∧ ((createTestAccounts (fun _ => "p")).length = poolSize
      ∧ (fundPhase (createTestAccounts (fun _ => "p")) (fun _ => false)).pool
          = createTestAccounts (fun _ => "p")
      ∧ "p" ∈ (fundPhase (createTestAccounts (fun _ => "p")) (fun _ => false)).pool
      ∧ ∃ i, i < poolSize
          ∧ selectAccount (createTestAccounts (fun _ => "p")) i = some "p") :=
  ⟨by decide, C10_pool_membership_fixed (fun _ => "p") (fun _ => false) "p" (by decide)⟩

/-- Witness for C2's amended theorem at a concrete unknown address. -/
theorem C2_unknown_account_yields_nan_witness :
    ("0xdead" ∉ ["0xa"])
    ∧ ((NonceManager.getNextNonce (NonceManager.initNonces (fun _ => 0) ["0xa"]) "0xdead").1
        = JsVal.nan
      ∧ (∀ n : Int,
          (NonceManager.getNextNonce (NonceManager.initNonces (fun _ => 0) ["0xa"]) "0xdead").1
            ≠ JsVal.int n)
      ∧ ((NonceManager.getNextNonce (NonceManager.initNonces (fun _ => 0) ["0xa"]) "0xdead").2).nonces "0xdead"
        = JsVal.nan) :=
  ⟨by decide, C2_unknown_account_yields_nan (fun _ => 0) ["0xa"] "0xdead" (by decide)⟩
